import Mathlib

/-!
Verification of the paperstore batch metadata extraction subsystem
(`src/backend/src/services/batch_metadata.py`, `src/backend/src/schemas/paper.py`,
`src/backend/src/models/batch_job.py`, `src/backend/src/main.py`) against its
natural-language specification.

The Python code is shallowly embedded: pure fragments become Lean functions,
the database is an explicit list of records, external collaborators (Drive
downloads, PDF text extraction, the Gemini batch service) are function
parameters, and code that can raise returns `Except`.
-/

namespace Paperstore

/-! ## Python string / int semantics used by the source -/

/-- Characters Python `str.strip()` removes (ASCII whitespace). -/
def pyIsSpace (c : Char) : Bool :=
  c = ' ' || c = '\t' || c = '\n' || c = '\r' || c = '\x0b' || c = '\x0c'

def pyStripList (cs : List Char) : List Char :=
  ((cs.dropWhile pyIsSpace).reverse.dropWhile pyIsSpace).reverse

/-- Python `str.strip()`. -/
def pyStrip (s : String) : String :=
  String.mk (pyStripList s.toList)

def listStartsWith : List Char → List Char → Bool
  | _, [] => true
  | [], _ :: _ => false
  | a :: as, b :: bs => a = b && listStartsWith as bs

/-- Python `str.startswith`. -/
def pyStartsWith (s pre : String) : Bool :=
  listStartsWith s.toList pre.toList

/-- Python `s[n:]` (drop the first `n` characters). -/
def pyDrop (s : String) (n : Nat) : String :=
  String.mk (s.toList.drop n)

def pySplitAux (sep : List Char) : Nat → List Char → List Char → List (List Char)
  | 0, acc, cs => [acc.reverse ++ cs]
  | _ + 1, acc, [] => [acc.reverse]
  | fuel + 1, acc, c :: rest =>
    if listStartsWith (c :: rest) sep then
      acc.reverse :: pySplitAux sep fuel [] ((c :: rest).drop sep.length)
    else
      pySplitAux sep fuel (c :: acc) rest

/-- Python `str.split(sep)` for a non-empty separator. -/
def pySplit (s sep : String) : List String :=
  (pySplitAux sep.toList (s.toList.length + 1) [] s.toList).map String.mk

/-- Python `str.replace(old, new)`. -/
def pyReplace (s old new : String) : String :=
  String.intercalate new (pySplit s old)

/-- Python `s.rsplit(sep, 1)[0]`: everything before the last occurrence of
`sep`, or `s` itself when `sep` does not occur. -/
def pyRSplitHead (s sep : String) : String :=
  let parts := pySplit s sep
  if parts.length ≤ 1 then s else String.intercalate sep parts.dropLast

def isAsciiDigit (c : Char) : Bool := '0' ≤ c && c ≤ '9'

def digitVal (c : Char) : Nat := c.toNat - 48

def pyDigitsAux : List Char → Nat → Option Nat
  | [], acc => some acc
  | '_' :: c :: rest, acc =>
    if isAsciiDigit c then pyDigitsAux rest (acc * 10 + digitVal c) else none
  | ['_'], _ => none
  | c :: rest, acc =>
    if isAsciiDigit c then pyDigitsAux rest (acc * 10 + digitVal c) else none

/-- Digit run of `int(str)`: one or more ASCII digits, single underscores
allowed between digits. -/
def pyDigits (cs : List Char) : Option Nat :=
  match cs with
  | c :: _ => if isAsciiDigit c then pyDigitsAux cs 0 else none
  | [] => none

/-- Python `int(str)`: surrounding whitespace, optional sign, digit run.
Returns `none` where Python raises `ValueError`. -/
def pyInt (s : String) : Option Int :=
  match pyStripList s.toList with
  | '+' :: rest => (pyDigits rest).map Int.ofNat
  | '-' :: rest => (pyDigits rest).map (fun n => -(Int.ofNat n))
  | rest => (pyDigits rest).map Int.ofNat

/-! ## `datetime.date` -/

structure PyDate where
  year : Int
  month : Int
  day : Int
deriving DecidableEq, Repr

def isLeapYear (y : Int) : Bool :=
  (y % 4 = 0 && y % 100 ≠ 0) || y % 400 = 0

def daysInMonth (y m : Int) : Int :=
  if m = 2 then (if isLeapYear y then 29 else 28)
  else if m = 4 || m = 6 || m = 9 || m = 11 then 30
  else 31

/-- The `datetime.date(y, m, d)` constructor: validates its arguments and
raises `ValueError` (modelled as `Except.error`) on an invalid date. -/
def mkPyDate (y m d : Int) : Except String PyDate :=
  if 1 ≤ y && y ≤ 9999 && 1 ≤ m && m ≤ 12 && 1 ≤ d && d ≤ daysInMonth y m then
    .ok ⟨y, m, d⟩
  else
    .error "ValueError: invalid date"

/-! ## `parse_partial_date` (src/backend/src/schemas/paper.py, lines 53-84) -/

/-- Python `repr` of a string as used in the source's error message
(quote escaping elided; the exact message carries no weight). -/
def pyReprStr (s : String) : String := "'" ++ s ++ "'"

def dateFormatError (s : String) : String :=
  "Unrecognised date format: " ++ pyReprStr s

/-- The token list `parse_partial_date` derives from its input: strip,
normalise en/em dashes to ASCII hyphens, split on `-`. -/
def dateTokens (s : String) : List String :=
  pySplit (pyReplace (pyReplace (pyStrip s) "–" "-") "—" "-") "-"

/-- `PaperUpdateRequest.parse_partial_date`: the permissive date-normalisation
validator. `.error` models the `ValueError` the validator raises. -/
def parse_partial_date (v : Option String) : Except String (Option PyDate) :=
  match v with
  | none => .ok none
  | some s =>
    if s = "" then .ok none
    else
      let parts := dateTokens s
      let fail : Except String (Option PyDate) := .error (dateFormatError s)
      match parts with
      | [p0] =>
        match pyInt p0 with
        | none => fail
        | some y =>
          match mkPyDate y 1 1 with
          | .ok d => .ok (some d)
          | .error _ => fail
      | [p0, p1] =>
        match pyInt p0, pyInt p1 with
        | some a, some b =>
          if a > 31 then
            match mkPyDate a b 1 with
            | .ok d => .ok (some d)
            | .error _ => fail
          else
            match mkPyDate b a 1 with
            | .ok d => .ok (some d)
            | .error _ => fail
        | _, _ => fail
      | p0 :: p1 :: p2 :: _ =>
        match pyInt p0, pyInt p1, pyInt p2 with
        | some a, some b, some c =>
          if a > 31 then
            match mkPyDate a b c with
            | .ok d => .ok (some d)
            | .error _ => fail
          else if c > 31 then
            if a > 12 then
              match mkPyDate c b a with
              | .ok d => .ok (some d)
              | .error _ => fail
            else
              match mkPyDate c b a with
              | .ok d => .ok (some d)
              | .error _ => fail
          else fail
        | _, _, _ => fail
      | [] => fail

example : parse_partial_date (some "2023") = .ok (some ⟨2023, 1, 1⟩) := by rfl
example : parse_partial_date (some "03-2023") = .ok (some ⟨2023, 3, 1⟩) := by rfl
example : parse_partial_date (some "2023-03-15") = .ok (some ⟨2023, 3, 15⟩) := by rfl
example : parse_partial_date (some "15-03-2023") = .ok (some ⟨2023, 3, 15⟩) := by rfl
example : parse_partial_date (some "13-03-2023") = .ok (some ⟨2023, 3, 13⟩) := by rfl
example : parse_partial_date (some "not-a-date") =
    .error (dateFormatError "not-a-date") := by rfl

/-- C7: date normalization. After en/em dashes are normalised to hyphens,
one numeric token yields the year with month = day = 1; two tokens yield
YYYY-MM (day 1) when the first value exceeds 31 and MM-YYYY (day 1)
otherwise; three tokens yield YYYY-MM-DD when the first value exceeds 31,
DD-MM-YYYY when instead the last exceeds 31 (the ambiguous MM-DD-YYYY case
folded in), and otherwise normalization fails; exceptions are failures, not
crashes (the function is total), and the spec's round-trip examples hold. -/
theorem date_normalization_spec :
    (∀ s t y d, dateTokens s = [t] → pyInt t = some y →
      mkPyDate y 1 1 = .ok d → parse_partial_date (some s) = .ok (some d)) ∧
    (∀ s t0 t1 a b d, dateTokens s = [t0, t1] →
      pyInt t0 = some a → pyInt t1 = some b → a > 31 →
      mkPyDate a b 1 = .ok d → parse_partial_date (some s) = .ok (some d)) ∧
    (∀ s t0 t1 a b d, dateTokens s = [t0, t1] →
      pyInt t0 = some a → pyInt t1 = some b → a ≤ 31 →
      mkPyDate b a 1 = .ok d → parse_partial_date (some s) = .ok (some d)) ∧
    (∀ s t0 t1 t2 a b c d, dateTokens s = [t0, t1, t2] →
      pyInt t0 = some a → pyInt t1 = some b → pyInt t2 = some c → a > 31 →
      mkPyDate a b c = .ok d → parse_partial_date (some s) = .ok (some d)) ∧
    (∀ s t0 t1 t2 a b c d, dateTokens s = [t0, t1, t2] →
      pyInt t0 = some a → pyInt t1 = some b → pyInt t2 = some c →
      a ≤ 31 → c > 31 →
      mkPyDate c b a = .ok d → parse_partial_date (some s) = .ok (some d)) ∧
    (∀ s t0 t1 t2 a b c, dateTokens s = [t0, t1, t2] →
      pyInt t0 = some a → pyInt t1 = some b → pyInt t2 = some c →
      a ≤ 31 → c ≤ 31 →
      parse_partial_date (some s) = .error (dateFormatError s)) ∧
    parse_partial_date (some "2023") = .ok (some ⟨2023, 1, 1⟩) ∧
    parse_partial_date (some "03-2023") = .ok (some ⟨2023, 3, 1⟩) ∧
    parse_partial_date (some "2023-03-15") = .ok (some ⟨2023, 3, 15⟩) ∧
    parse_partial_date (some "15-03-2023") = .ok (some ⟨2023, 3, 15⟩) ∧
    parse_partial_date (some "13-03-2023") = .ok (some ⟨2023, 3, 13⟩) ∧
    parse_partial_date (some "not-a-date") = .error (dateFormatError "not-a-date") := by
  have hempty : dateTokens "" = [""] := by rfl
  have hIntEmpty : pyInt "" = none := by rfl
  refine ⟨?_, ?_, ?_, ?_, ?_, ?_, by rfl, by rfl, by rfl, by rfl, by rfl, by rfl⟩
  · intro s t y d htok hint hdate
    by_cases hs : s = ""
    · subst hs
      rw [hempty] at htok
      cases htok
      rw [hIntEmpty] at hint
      cases hint
    · simp only [parse_partial_date, if_neg hs, htok, hint, hdate]
  · intro s t0 t1 a b d htok h0 h1 ha hdate
    by_cases hs : s = ""
    · subst hs; rw [hempty] at htok; cases htok
    · simp only [parse_partial_date, if_neg hs, htok, h0, h1, if_pos ha, hdate]
  · intro s t0 t1 a b d htok h0 h1 ha hdate
    by_cases hs : s = ""
    · subst hs; rw [hempty] at htok; cases htok
    · have ha' : ¬ a > 31 := by omega
      simp only [parse_partial_date, if_neg hs, htok, h0, h1, if_neg ha', hdate]
  · intro s t0 t1 t2 a b c d htok h0 h1 h2 ha hdate
    by_cases hs : s = ""
    · subst hs; rw [hempty] at htok; cases htok
    · simp only [parse_partial_date, if_neg hs, htok, h0, h1, h2, if_pos ha, hdate]
  · intro s t0 t1 t2 a b c d htok h0 h1 h2 ha hc hdate
    by_cases hs : s = ""
    · subst hs; rw [hempty] at htok; cases htok
    · have ha' : ¬ a > 31 := by omega
      by_cases h12 : a > 12
      · simp only [parse_partial_date, if_neg hs, htok, h0, h1, h2, if_neg ha',
          if_pos hc, if_pos h12, hdate]
      · simp only [parse_partial_date, if_neg hs, htok, h0, h1, h2, if_neg ha',
          if_pos hc, if_neg h12, hdate]
  · intro s t0 t1 t2 a b c htok h0 h1 h2 ha hc
    by_cases hs : s = ""
    · subst hs; rw [hempty] at htok; cases htok
    · have ha' : ¬ a > 31 := by omega
      have hc' : ¬ c > 31 := by omega
      simp only [parse_partial_date, if_neg hs, htok, h0, h1, h2, if_neg ha', if_neg hc']

/-- Witness for C7: the DD-MM-YYYY branch applied at the concrete input
"05-07-1999". -/
theorem date_normalization_spec_witness :
    parse_partial_date (some "05-07-1999") = .ok (some ⟨1999, 7, 5⟩) :=
  date_normalization_spec.2.2.2.2.1 "05-07-1999" "05" "07" "1999" 5 7 1999
    ⟨1999, 7, 5⟩ (by rfl) (by rfl) (by rfl) (by rfl) (by decide) (by decide) (by rfl)

/-! ## JSON values and `json.loads` -/

/-- A value decoded by Python's `json.loads`. Non-integer numbers keep their
source lexeme (their exact float value plays no role in the service). -/
inductive PyJson where
  | null
  | jbool (b : Bool)
  | jint (n : Int)
  | jfloat (raw : String)
  | jstr (s : String)
  | jarr (xs : List PyJson)
  | jobj (fields : List (String × PyJson))
deriving Repr, Inhabited

/-- `dict.get` on a decoded JSON object: with duplicate keys the later
occurrence wins, as in `json.loads`. -/
def dictGet (fields : List (String × PyJson)) (k : String) : Option PyJson :=
  ((fields.filter (fun kv => kv.1 = k)).getLast?).map (fun kv => kv.2)

def jsonIsWs (c : Char) : Bool :=
  c = ' ' || c = '\t' || c = '\n' || c = '\r'

def jsonSkipWs (cs : List Char) : List Char :=
  cs.dropWhile jsonIsWs

def hexVal (c : Char) : Option Nat :=
  if '0' ≤ c && c ≤ '9' then some (c.toNat - 48)
  else if 'a' ≤ c && c ≤ 'f' then some (c.toNat - 87)
  else if 'A' ≤ c && c ≤ 'F' then some (c.toNat - 55)
  else none

/-- JSON string body after the opening quote. Returns the decoded characters
and the remaining input. `\uXXXX` escapes become the code point directly
(surrogate pairing elided — no claim depends on astral characters). -/
def parseJsonStringAux : Nat → List Char → List Char → Option (String × List Char)
  | 0, _, _ => none
  | _ + 1, _, [] => none
  | _ + 1, acc, '"' :: rest => some (String.mk acc.reverse, rest)
  | fuel + 1, acc, '\\' :: e :: rest =>
    match e with
    | '"' => parseJsonStringAux fuel ('"' :: acc) rest
    | '\\' => parseJsonStringAux fuel ('\\' :: acc) rest
    | '/' => parseJsonStringAux fuel ('/' :: acc) rest
    | 'b' => parseJsonStringAux fuel ('\x08' :: acc) rest
    | 'f' => parseJsonStringAux fuel ('\x0c' :: acc) rest
    | 'n' => parseJsonStringAux fuel ('\n' :: acc) rest
    | 'r' => parseJsonStringAux fuel ('\r' :: acc) rest
    | 't' => parseJsonStringAux fuel ('\t' :: acc) rest
    | 'u' =>
      match rest with
      | h1 :: h2 :: h3 :: h4 :: rest2 =>
        match hexVal h1, hexVal h2, hexVal h3, hexVal h4 with
        | some a, some b, some c, some d =>
          parseJsonStringAux fuel (Char.ofNat (((a * 16 + b) * 16 + c) * 16 + d) :: acc) rest2
        | _, _, _, _ => none
      | _ => none
    | _ => none
  | fuel + 1, acc, c :: rest =>
    if c.toNat < 32 then none else parseJsonStringAux fuel (c :: acc) rest

/-- JSON number: `-? int frac? exp?` (strict grammar as in Python's json). -/
def parseJsonNumber (cs : List Char) : Option (PyJson × List Char) :=
  let (sign, cs1) := match cs with
    | '-' :: rest => (true, rest)
    | _ => (false, cs)
  let intDigits := cs1.takeWhile isAsciiDigit
  if intDigits = [] then none
  else if intDigits.length > 1 && intDigits.headD '0' = '0' then none
  else
    let rest1 := cs1.drop intDigits.length
    let (fracDigits, rest2) := match rest1 with
      | '.' :: r =>
        let ds := r.takeWhile isAsciiDigit
        (some ds, r.drop ds.length)
      | _ => (none, rest1)
    match fracDigits with
    | some [] => none
    | _ =>
      let (expDigits, rest3) := match rest2 with
        | 'e' :: '+' :: r => (some (r.takeWhile isAsciiDigit), r.drop (r.takeWhile isAsciiDigit).length)
        | 'e' :: '-' :: r => (some (r.takeWhile isAsciiDigit), r.drop (r.takeWhile isAsciiDigit).length)
        | 'e' :: r => (some (r.takeWhile isAsciiDigit), r.drop (r.takeWhile isAsciiDigit).length)
        | 'E' :: '+' :: r => (some (r.takeWhile isAsciiDigit), r.drop (r.takeWhile isAsciiDigit).length)
        | 'E' :: '-' :: r => (some (r.takeWhile isAsciiDigit), r.drop (r.takeWhile isAsciiDigit).length)
        | 'E' :: r => (some (r.takeWhile isAsciiDigit), r.drop (r.takeWhile isAsciiDigit).length)
        | _ => (none, rest2)
      match expDigits with
      | some [] => none
      | _ =>
        let consumed := cs.length - rest3.length
        let lexeme := String.mk (cs.take consumed)
        if fracDigits = none && expDigits = none then
          let v : Int := Int.ofNat (intDigits.foldl (fun acc c => acc * 10 + digitVal c) 0)
          some (.jint (if sign then -v else v), rest3)
        else
          some (.jfloat lexeme, rest3)

mutual

def parseJsonValue : Nat → List Char → Option (PyJson × List Char)
  | 0, _ => none
  | fuel + 1, cs =>
    match jsonSkipWs cs with
    | 'n' :: 'u' :: 'l' :: 'l' :: rest => some (.null, rest)
    | 't' :: 'r' :: 'u' :: 'e' :: rest => some (.jbool true, rest)
    | 'f' :: 'a' :: 'l' :: 's' :: 'e' :: rest => some (.jbool false, rest)
    | '"' :: rest =>
      (parseJsonStringAux (fuel + 1) [] rest).map (fun p => (.jstr p.1, p.2))
    | '[' :: rest =>
      (match jsonSkipWs rest with
       | ']' :: rest2 => some (.jarr [], rest2)
       | rest2 => (parseJsonElems fuel rest2).map (fun p => (.jarr p.1, p.2)))
    | '{' :: rest =>
      (match jsonSkipWs rest with
       | '}' :: rest2 => some (.jobj [], rest2)
       | rest2 => (parseJsonMembers fuel rest2).map (fun p => (.jobj p.1, p.2)))
    | rest => parseJsonNumber rest

def parseJsonElems : Nat → List Char → Option (List PyJson × List Char)
  | 0, _ => none
  | fuel + 1, cs =>
    match parseJsonValue fuel cs with
    | none => none
    | some (v, rest) =>
      match jsonSkipWs rest with
      | ',' :: rest2 =>
        (parseJsonElems fuel rest2).map (fun p => (v :: p.1, p.2))
      | ']' :: rest2 => some ([v], rest2)
      | _ => none

def parseJsonMembers : Nat → List Char → Option (List (String × PyJson) × List Char)
  | 0, _ => none
  | fuel + 1, cs =>
    match jsonSkipWs cs with
    | '"' :: rest =>
      match parseJsonStringAux (fuel + 1) [] rest with
      | none => none
      | some (k, rest1) =>
        match jsonSkipWs rest1 with
        | ':' :: rest2 =>
          match parseJsonValue fuel rest2 with
          | none => none
          | some (v, rest3) =>
            match jsonSkipWs rest3 with
            | ',' :: rest4 =>
              (parseJsonMembers fuel rest4).map (fun p => ((k, v) :: p.1, p.2))
            | '}' :: rest4 => some ([(k, v)], rest4)
            | _ => none
        | _ => none
    | _ => none

end

/-- Python `json.loads`, returning `none` where it raises `JSONDecodeError`. -/
def json_loads (s : String) : Option PyJson :=
  match parseJsonValue (2 * s.toList.length + 8) s.toList with
  | none => none
  | some (v, rest) => if jsonSkipWs rest = [] then some v else none

/-! ## Python `str()` / truthiness on decoded JSON values -/

def jsonFloatIsZero (raw : String) : Bool :=
  (raw.toList.takeWhile (fun c => c ≠ 'e' && c ≠ 'E')).all
    (fun c => !isAsciiDigit c || c = '0')

mutual

/-- Python `repr` of a decoded JSON value (string escaping elided; only
reachable through `str()` of non-string title/date/abstract values). -/
def pyRepr : PyJson → String
  | .null => "None"
  | .jbool true => "True"
  | .jbool false => "False"
  | .jint n => toString n
  | .jfloat raw => raw
  | .jstr s => "'" ++ s ++ "'"
  | .jarr xs => "[" ++ String.intercalate ", " (pyReprList xs) ++ "]"
  | .jobj fs =>
    "\x7b" ++ String.intercalate ", " (pyReprMembers fs) ++ "\x7d"

def pyReprList : List PyJson → List String
  | [] => []
  | x :: xs => pyRepr x :: pyReprList xs

def pyReprMembers : List (String × PyJson) → List String
  | [] => []
  | kv :: fs => ("'" ++ kv.1 ++ "': " ++ pyRepr kv.2) :: pyReprMembers fs

end

/-- Python `str()` of a decoded JSON value. -/
def pyStr : PyJson → String
  | .jstr s => s
  | .null => "None"
  | .jbool true => "True"
  | .jbool false => "False"
  | .jint n => toString n
  | .jfloat raw => raw
  | .jarr xs => "[" ++ String.intercalate ", " (pyReprList xs) ++ "]"
  | .jobj fs =>
    "\x7b" ++ String.intercalate ", " (pyReprMembers fs) ++ "\x7d"

/-- Python truthiness of a decoded JSON value. -/
def pyTruthy : PyJson → Bool
  | .null => false
  | .jbool b => b
  | .jint n => n ≠ 0
  | .jfloat raw => !jsonFloatIsZero raw
  | .jstr s => s ≠ ""
  | .jarr xs => !xs.isEmpty
  | .jobj fs => !fs.isEmpty

/-! ## `_parse_metadata` (src/backend/src/services/batch_metadata.py, lines 376-403) -/

/-- `ExtractedMetadata` (src/backend/src/schemas/paper.py). -/
structure ExtractedMetadata where
  title : Option String
  authors : List String
  date : Option String
  abstract : Option String
deriving DecidableEq, Repr

/-- The all-empty record returned on any parse failure. -/
def emptyMetadata : ExtractedMetadata :=
  { title := none, authors := [], date := none, abstract := none }

/-- The code-fence stripping prefix of `_parse_metadata`: strip the input,
and if it starts with a triple backtick, keep the segment between the first
two fences (`split("\x60\x60\x60", 2)[1]`), drop a leading "json" tag, drop
everything from the last fence on (`rsplit("\x60\x60\x60", 1)[0]`), strip. -/
def stripFence (raw_text : String) : String :=
  let raw := pyStrip raw_text
  if pyStartsWith raw "```" then
    let raw := (pySplit raw "```").drop 1 |>.headD ""
    let raw := if pyStartsWith raw "json" then pyDrop raw 4 else raw
    pyStrip (pyRSplitHead raw "```")
  else raw

/-- Python `str(x) if x else None` for an optional value from `dict.get`. -/
def strIfTruthy : Option PyJson → Option String
  | none => none
  | some j => if pyTruthy j then some (pyStr j) else none

/-- The object branch of `_parse_metadata`: read the four known keys out of
the decoded object; every other key is never consulted. -/
def parseMetadataObject (fields : List (String × PyJson)) : ExtractedMetadata :=
  let title := dictGet fields "title"
  let authors_raw := (dictGet fields "authors").getD (.jarr [])
  let date := dictGet fields "date"
  let abstract := dictGet fields "abstract"
  { title := strIfTruthy title
    authors := match authors_raw with
      | .jarr xs => xs.map pyStr
      | _ => []
    date := strIfTruthy date
    abstract := strIfTruthy abstract }

/-- `_parse_metadata`: best-effort parse of the LLM response text. Total —
the only exception the body can raise (`json.JSONDecodeError`) is caught. -/
def _parse_metadata (raw_text : String) : ExtractedMetadata :=
  let raw := stripFence raw_text
  match json_loads raw with
  | none => emptyMetadata
  | some data =>
    match data with
    | .jobj fields => parseMetadataObject fields
    | _ => emptyMetadata

example :
    _parse_metadata "\x7b\"title\": \"T1\", \"authors\": [\"A\"], \"date\": \"2020\", \"abstract\": \"X\"\x7d" =
      { title := some "T1", authors := ["A"], date := some "2020", abstract := some "X" } := by rfl

example :
    _parse_metadata "```json\n\x7b\"title\": \"T\"\x7d\n```" =
      { title := some "T", authors := [], date := none, abstract := none } := by rfl

example : _parse_metadata "not json at all" = emptyMetadata := by rfl

example : _parse_metadata "[1, 2]" = emptyMetadata := by rfl

example :
    _parse_metadata "\x7b\"title\": \"T\", \"authors\": \"oops\", \"extra\": 5\x7d" =
      { title := some "T", authors := [], date := none, abstract := none } := by rfl

lemma dictGet_append_ne (fields : List (String × PyJson)) (k k' : String) (v : PyJson)
    (h : k ≠ k') : dictGet (fields ++ [(k, v)]) k' = dictGet fields k' := by
  simp [dictGet, List.filter_append, List.filter_cons, h]

/-- C9: best-effort response parser. The parser is a total function; the
code fence is stripped before decoding (demonstrated on a fenced and an
unfenced input); on decode failure, or when the decoded value is not an
object, every field of the result is empty/null; a non-list "authors" value
yields an empty author list; and keys other than the four known ones are
ignored. -/
theorem parse_metadata_best_effort :
    (∀ s, json_loads (stripFence s) = none → _parse_metadata s = emptyMetadata) ∧
    (∀ s j, json_loads (stripFence s) = some j → (∀ fs, j ≠ .jobj fs) →
      _parse_metadata s = emptyMetadata) ∧
    (∀ s fields, json_loads (stripFence s) = some (.jobj fields) →
      (∀ xs, dictGet fields "authors" ≠ some (.jarr xs)) →
      (_parse_metadata s).authors = []) ∧
    (∀ fields k v, k ∉ (["title", "authors", "date", "abstract"] : List String) →
      parseMetadataObject (fields ++ [(k, v)]) = parseMetadataObject fields) ∧
    _parse_metadata "```json\n\x7b\"title\": \"T\"\x7d\n```" =
      { title := some "T", authors := [], date := none, abstract := none } ∧
    _parse_metadata "\x7b\"title\": \"T\"\x7d" =
      { title := some "T", authors := [], date := none, abstract := none } ∧
    _parse_metadata "not valid json" = emptyMetadata := by
  refine ⟨?_, ?_, ?_, ?_, by rfl, by rfl, by rfl⟩
  · intro s h
    simp only [_parse_metadata, h]
  · intro s j h hne
    cases j with
    | jobj fields => exact absurd rfl (hne fields)
    | null => simp only [_parse_metadata, h]
    | jbool b => simp only [_parse_metadata, h]
    | jint n => simp only [_parse_metadata, h]
    | jfloat raw => simp only [_parse_metadata, h]
    | jstr s => simp only [_parse_metadata, h]
    | jarr xs => simp only [_parse_metadata, h]
  · intro s fields h hne
    simp only [_parse_metadata, h, parseMetadataObject]
    cases hget : dictGet fields "authors" with
    | none => simp [hget]
    | some j =>
      cases j with
      | jarr xs => exact absurd hget (hne xs)
      | null => simp [hget]
      | jbool b => simp [hget]
      | jint n => simp [hget]
      | jfloat raw => simp [hget]
      | jstr s => simp [hget]
      | jobj fs => simp [hget]
  · intro fields k v hk
    simp only [List.mem_cons, List.mem_singleton, not_or] at hk
    obtain ⟨h1, h2, h3, h4, -⟩ := hk
    simp only [parseMetadataObject, dictGet_append_ne fields k _ v h1,
      dictGet_append_ne fields k _ v h2, dictGet_append_ne fields k _ v h3,
      dictGet_append_ne fields k _ v h4]

/-- Witness for C9: the decode-failure branch applied at a concrete
non-JSON input. -/
theorem parse_metadata_best_effort_witness :
    _parse_metadata "garbage ]] response" = emptyMetadata :=
  parse_metadata_best_effort.1 "garbage ]] response" (by rfl)

/-! ## `Paper` (src/backend/src/models/paper.py) and `_apply_metadata` -/

/-- The view of a catalog entry consumed by the batch service: `title` is a
non-nullable string, `authors` a non-nullable array, `published_date`,
`abstract` and `metadata_skip_reason` nullable. -/
@[ext]
structure Paper where
  id : String
  title : String
  authors : List String
  published_date : Option PyDate
  abstract : Option String
  metadata_skip_reason : Option String
  drive_file_id : String
deriving DecidableEq, Repr

/-- Python truthiness of a `str | None` value. -/
def optStrTruthy : Option String → Bool
  | none => false
  | some s => s ≠ ""

/-- `_apply_metadata` (src/backend/src/services/batch_metadata.py,
lines 406-429): write extracted fields to the paper only if the field is
currently empty. The date is routed through `PaperUpdateRequest`, whose only
fallible validation is `parse_partial_date`; a raised `ValueError` is
swallowed by the `except Exception: pass`. -/
def _apply_metadata (paper : Paper) (meta : ExtractedMetadata) : Paper :=
  let p1 := if paper.title = "" ∧ optStrTruthy meta.title then
      { paper with title := meta.title.getD "" } else paper
  let p2 := if p1.authors = [] ∧ meta.authors ≠ [] then
      { p1 with authors := meta.authors } else p1
  let p3 := if optStrTruthy p2.abstract = false ∧ optStrTruthy meta.abstract then
      { p2 with abstract := meta.abstract } else p2
  if p3.published_date = none ∧ optStrTruthy meta.date then
    match parse_partial_date meta.date with
    | .ok d => { p3 with published_date := d }
    | .error _ => p3
  else p3

/-- Field-wise characterisation of `_apply_metadata`: the four guarded
updates are independent, each reading only the field it writes. -/
lemma apply_metadata_fields (p : Paper) (m : ExtractedMetadata) :
    _apply_metadata p m = { p with
      title := if p.title = "" ∧ optStrTruthy m.title then m.title.getD "" else p.title
      authors := if p.authors = [] ∧ m.authors ≠ [] then m.authors else p.authors
      abstract := if optStrTruthy p.abstract = false ∧ optStrTruthy m.abstract then
          m.abstract else p.abstract
      published_date := if p.published_date = none ∧ optStrTruthy m.date then
          (match parse_partial_date m.date with | .ok d => d | .error _ => p.published_date)
        else p.published_date } := by
  unfold _apply_metadata
  by_cases c1 : p.title = "" ∧ optStrTruthy m.title <;>
    by_cases c2 : p.authors = [] ∧ m.authors ≠ [] <;>
      by_cases c3 : optStrTruthy p.abstract = false ∧ optStrTruthy m.abstract <;>
        by_cases c4 : p.published_date = none ∧ optStrTruthy m.date <;>
          cases hpd : parse_partial_date m.date <;>
            first
            | (simp [c1, c2, c3, c4, hpd]; done)
            | (simp [c1, c2, c3, c4, hpd]
               exact Paper.ext rfl rfl rfl c4.1 rfl rfl rfl)

lemma optStrTruthy_getD {o : Option String} (h : optStrTruthy o = true) :
    o.getD "" ≠ "" := by
  cases o with
  | none => simp [optStrTruthy] at h
  | some s => simpa [optStrTruthy] using h

/-- C3: apply rule and idempotence. `_apply_metadata` never changes a
non-empty title/authors/abstract; it never changes a present published
date; a date-normalization failure leaves the date unchanged (and raises
nothing — the function is total); a date is set only when normalization
succeeds on the extracted string; and applying the same metadata twice
equals applying it once. -/
theorem apply_metadata_spec :
    (∀ (p : Paper) (m : ExtractedMetadata), p.title ≠ "" →
      (_apply_metadata p m).title = p.title) ∧
    (∀ (p : Paper) (m : ExtractedMetadata), p.authors ≠ [] →
      (_apply_metadata p m).authors = p.authors) ∧
    (∀ (p : Paper) (m : ExtractedMetadata), optStrTruthy p.abstract = true →
      (_apply_metadata p m).abstract = p.abstract) ∧
    (∀ (p : Paper) (m : ExtractedMetadata), p.published_date ≠ none →
      (_apply_metadata p m).published_date = p.published_date) ∧
    (∀ (p : Paper) (m : ExtractedMetadata) (e : String),
      parse_partial_date m.date = .error e →
      (_apply_metadata p m).published_date = p.published_date) ∧
    (∀ (p : Paper) (m : ExtractedMetadata) (d : PyDate),
      p.published_date = none → (_apply_metadata p m).published_date = some d →
      parse_partial_date m.date = .ok (some d)) ∧
    (∀ (p : Paper) (m : ExtractedMetadata),
      _apply_metadata (_apply_metadata p m) m = _apply_metadata p m) := by
  refine ⟨?_, ?_, ?_, ?_, ?_, ?_, ?_⟩
  · intro p m h
    rw [apply_metadata_fields]
    simp [h]
  · intro p m h
    rw [apply_metadata_fields]
    simp [h]
  · intro p m h
    rw [apply_metadata_fields]
    simp [h]
  · intro p m h
    rw [apply_metadata_fields]
    simp [h]
  · intro p m e h
    rw [apply_metadata_fields]
    by_cases c : p.published_date = none ∧ optStrTruthy m.date
    · simp [c, h]
    · simp [c]
  · intro p m d hnone hset
    rw [apply_metadata_fields] at hset
    by_cases hT : optStrTruthy m.date = true
    · cases hpd : parse_partial_date m.date with
      | ok o =>
        simp [hnone, hT, hpd] at hset
        simp [hset]
      | error e =>
        simp [hnone, hT, hpd] at hset
    · simp [hnone, hT] at hset
  · intro p m
    rw [apply_metadata_fields (_apply_metadata p m) m, apply_metadata_fields p m]
    refine Paper.ext rfl ?_ ?_ ?_ ?_ rfl rfl
    · by_cases c : p.title = "" ∧ optStrTruthy m.title
      · simp [c, optStrTruthy_getD c.2]
      · simp [c]
    · by_cases c : p.authors = [] ∧ m.authors ≠ []
      · simp [c]
      · simp [c]
    · by_cases c : p.published_date = none ∧ optStrTruthy m.date
      · cases hpd : parse_partial_date m.date <;> simp [c, hpd]
      · simp [c]
    · by_cases c : optStrTruthy p.abstract = false ∧ optStrTruthy m.abstract
      · simp [c, c.2]
      · simp [c]

/-- Witness for C3: a non-empty title survives an application at a concrete
entry and concrete metadata. -/
theorem apply_metadata_spec_witness :
    (_apply_metadata
      { id := "p1", title := "Keep", authors := [], published_date := none,
        abstract := none, metadata_skip_reason := none, drive_file_id := "f1" }
      { title := some "New", authors := ["A"], date := some "2020",
        abstract := some "X" }).title = "Keep" :=
  apply_metadata_spec.1
    { id := "p1", title := "Keep", authors := [], published_date := none,
      abstract := none, metadata_skip_reason := none, drive_file_id := "f1" }
    { title := some "New", authors := ["A"], date := some "2020",
      abstract := some "X" } (by decide)

/-! ## `BatchJob` and eligibility -/

/-- The job record as the service constructs and manipulates it
(`_submit_chunk` also passes `papers_done`; the separate ORM column list is
modelled below, where the two are compared). Timestamps are abstract ticks. -/
structure BatchJob where
  id : String
  gemini_job_name : String
  state : String
  paper_ids : List String
  papers_done : Nat
  completed_at : Option Nat
deriving DecidableEq, Repr

/-- `bool(paper.abstract and paper.abstract.strip())`. -/
def hasAbstract (p : Paper) : Bool :=
  match p.abstract with
  | none => false
  | some a => pyStrip a ≠ ""

/-- `bool(paper.authors)`. -/
def hasAuthors (p : Paper) : Bool := !p.authors.isEmpty

/-- `paper.published_date is not None`. -/
def hasDate (p : Paper) : Bool := p.published_date.isSome

/-- `_is_eligible` (src/backend/src/services/batch_metadata.py,
lines 350-357). -/
def _is_eligible (paper : Paper) : Bool :=
  if paper.metadata_skip_reason.isSome then false
  else !(hasAbstract paper && hasAuthors paper && hasDate paper)

def _CHUNK_SIZE : Nat := 20

/-- The in-flight paper-id set built at the top of each `_loop` iteration:
all member ids of jobs currently in state "submitted". -/
def in_flight (jobs : List BatchJob) : List String :=
  (jobs.filter (fun j => j.state = "submitted")).flatMap (fun j => j.paper_ids)

/-- The chunk selected by one `_loop` iteration: ids of eligible papers not
covered by an in-flight job, truncated to `_CHUNK_SIZE`. -/
def select_chunk (papers : List Paper) (jobs : List BatchJob) : List String :=
  ((papers.filter
      (fun p => _is_eligible p && !(in_flight jobs).contains p.id)).map
    (fun p => p.id)).take _CHUNK_SIZE

/-- C8: eligibility. An entry is eligible iff its skip-reason is unset and
at least one of abstract/authors/date is missing; an entry with all three
populated, or with a skip-reason set, is ineligible; and every id selected
into a chunk comes from an entry that was eligible at selection time — so
such entries are excluded from every chunk selection while unchanged. -/
theorem eligibility_spec :
    (∀ p : Paper, _is_eligible p = true ↔
      (p.metadata_skip_reason = none ∧
        (hasAbstract p = false ∨ hasAuthors p = false ∨ hasDate p = false))) ∧
    (∀ p : Paper,
      ((hasAbstract p = true ∧ hasAuthors p = true ∧ hasDate p = true) ∨
        p.metadata_skip_reason ≠ none) → _is_eligible p = false) ∧
    (∀ (papers : List Paper) (jobs : List BatchJob) (pid : String),
      pid ∈ select_chunk papers jobs →
      ∃ p ∈ papers, p.id = pid ∧ _is_eligible p = true) := by
  refine ⟨?_, ?_, ?_⟩
  · intro p
    cases hskip : p.metadata_skip_reason with
    | some r => simp [_is_eligible, hskip]
    | none =>
      cases h1 : hasAbstract p <;> cases h2 : hasAuthors p <;> cases h3 : hasDate p <;>
        simp [_is_eligible, hskip, h1, h2, h3]
  · intro p h
    rcases h with ⟨h1, h2, h3⟩ | hskip
    · cases hskip : p.metadata_skip_reason with
      | some r => simp [_is_eligible, hskip]
      | none => simp [_is_eligible, hskip, h1, h2, h3]
    · cases hs : p.metadata_skip_reason with
      | some r => simp [_is_eligible, hs]
      | none => exact absurd hs hskip
  · intro papers jobs pid hmem
    have hmem' := List.mem_of_mem_take hmem
    obtain ⟨p, hp, rfl⟩ := List.mem_map.mp hmem'
    obtain ⟨hpm, hcond⟩ := List.mem_filter.mp hp
    exact ⟨p, hpm, rfl, ((Bool.and_eq_true _ _).mp hcond).1⟩

/-- Witness for C8: a fully-populated entry is ineligible. -/
theorem eligibility_spec_witness :
    _is_eligible
      { id := "p2", title := "T", authors := ["A"], published_date := some ⟨2020, 1, 1⟩,
        abstract := some "abs", metadata_skip_reason := none, drive_file_id := "f2" } = false :=
  eligibility_spec.2.1
    { id := "p2", title := "T", authors := ["A"], published_date := some ⟨2020, 1, 1⟩,
      abstract := some "abs", metadata_skip_reason := none, drive_file_id := "f2" }
    (Or.inl ⟨by rfl, by rfl, by rfl⟩)

/-! ## `_submit_chunk` (src/backend/src/services/batch_metadata.py, 217-293) -/

/-- Raw PDF bytes, abstract. -/
abbrev PdfBytes := String

/-- `_PROMPT` (src/backend/src/services/gemini.py). -/
def _PROMPT : String :=
  "You are a research paper metadata extractor. " ++
  "The following is text extracted from the first pages of a research paper PDF. " ++
  "Return ONLY a valid JSON object with these keys:\n" ++
  "  \"title\": string or null,\n" ++
  "  \"authors\": array of strings (full names),\n" ++
  "  \"date\": string in YYYY or YYYY-MM or YYYY-MM-DD format, or null,\n" ++
  "  \"abstract\": string or null\n" ++
  "Return nothing except the JSON object — no markdown, no explanation."

/-- One inline request of the batch submission; carries the single user part
`_PROMPT + "\n\n" + text`. -/
structure Request where
  text : String
deriving DecidableEq, Repr

def mkRequest (text : String) : Request := ⟨_PROMPT ++ "\n\n" ++ text⟩

/-- `paper.metadata_skip_reason = reason; db.commit()` for the paper with
the given id. -/
def setSkip (papers : List Paper) (pid reason : String) : List Paper :=
  papers.map (fun p =>
    if p.id = pid then { p with metadata_skip_reason := some reason } else p)

/-- `papers_by_id` lookup. -/
def papersById (papers : List Paper) (pid : String) : Option Paper :=
  papers.find? (fun p => p.id = pid)

/-- `pdf_bytes_by_id`: the concurrent Drive downloads, as the resulting map.
A `DriveUploadError` (the `Except.error` of the collaborator) drops the
entry from the map (the paper is skipped for this chunk only). -/
def pdfOf (papers : List Paper) (download : String → Except String PdfBytes)
    (pid : String) : Option PdfBytes :=
  (papersById papers pid).bind (fun p => (download p.drive_file_id).toOption)

/-- The sequential `for pid in chunk_ids` extraction loop of `_submit_chunk`:
builds `inline_requests` and `resolved_ids` in lockstep, in chunk order, and
permanently skips papers whose text extraction raises. -/
def prepLoop (extractText : PdfBytes → Except String String)
    (pdf : String → Option PdfBytes) (lookup : String → Option Paper) :
    List String → List Paper → List Request × List String × List Paper
  | [], db => ([], [], db)
  | pid :: rest, db =>
    match pdf pid with
    | none => prepLoop extractText pdf lookup rest db
    | some bytes =>
      match lookup pid with
      | none => prepLoop extractText pdf lookup rest db
      | some _paper =>
        match extractText bytes with
        | .error reason => prepLoop extractText pdf lookup rest (setSkip db pid reason)
        | .ok text =>
          let r := prepLoop extractText pdf lookup rest db
          (mkRequest text :: r.1, pid :: r.2.1, r.2.2)

/-- The request `_submit_chunk` builds for a given id, if any: present
exactly when the id has downloaded bytes, a backing paper, and successful
text extraction. -/
def builtRequest (extractText : PdfBytes → Except String String)
    (pdf : String → Option PdfBytes) (lookup : String → Option Paper)
    (pid : String) : Option Request :=
  match pdf pid with
  | none => none
  | some bytes =>
    match lookup pid with
    | none => none
    | some _paper =>
      match extractText bytes with
      | .error _ => none
      | .ok text => some (mkRequest text)

/-- `_submit_chunk`: returns the updated papers, the inline requests sent to
`client.batches.create`, and the persisted job (none when nothing survived
preparation). -/
def _submit_chunk (chunk_ids : List String) (papers : List Paper)
    (download : String → Except String PdfBytes)
    (extractText : PdfBytes → Except String String)
    (batch_name job_id : String) :
    List Paper × List Request × Option BatchJob :=
  let r := prepLoop extractText (pdfOf papers download) (papersById papers) chunk_ids papers
  if r.1 = [] then (r.2.2, r.1, none)
  else (r.2.2, r.1,
    some { id := job_id, gemini_job_name := batch_name, state := "submitted",
           paper_ids := r.2.1, papers_done := 0, completed_at := none })

lemma prepLoop_resolved (extractText : PdfBytes → Except String String)
    (pdf : String → Option PdfBytes) (lookup : String → Option Paper) :
    ∀ (l : List String) (db : List Paper),
      (prepLoop extractText pdf lookup l db).2.1 =
        l.filter (fun pid => (builtRequest extractText pdf lookup pid).isSome) := by
  intro l
  induction l with
  | nil => intro db; simp [prepLoop]
  | cons pid rest ih =>
    intro db
    cases hpdf : pdf pid with
    | none => simp [prepLoop, builtRequest, hpdf, ih, List.filter_cons]
    | some bytes =>
      cases hlook : lookup pid with
      | none => simp [prepLoop, builtRequest, hpdf, hlook, ih, List.filter_cons]
      | some paper =>
        cases hex : extractText bytes with
        | error r => simp [prepLoop, builtRequest, hpdf, hlook, hex, ih, List.filter_cons]
        | ok t => simp [prepLoop, builtRequest, hpdf, hlook, hex, ih, List.filter_cons]

lemma prepLoop_requests (extractText : PdfBytes → Except String String)
    (pdf : String → Option PdfBytes) (lookup : String → Option Paper) :
    ∀ (l : List String) (db : List Paper),
      (prepLoop extractText pdf lookup l db).2.1.map
          (builtRequest extractText pdf lookup) =
        (prepLoop extractText pdf lookup l db).1.map some := by
  intro l
  induction l with
  | nil => intro db; simp [prepLoop]
  | cons pid rest ih =>
    intro db
    cases hpdf : pdf pid with
    | none => simp [prepLoop, hpdf, ih]
    | some bytes =>
      cases hlook : lookup pid with
      | none => simp [prepLoop, hpdf, hlook, ih]
      | some paper =>
        cases hex : extractText bytes with
        | error r => simp [prepLoop, hpdf, hlook, hex, ih]
        | ok t =>
          simp [prepLoop, hpdf, hlook, hex, ih, builtRequest]

/-! ## `_apply_batch_results` (src/backend/src/services/batch_metadata.py, 296-344) -/

/-- One inlined response of the external batch call: an optional error
object (truthy iff present) and an optional response whose `.text` is an
optional string. -/
structure InlineResponse where
  error : Option String
  response : Option (Option String)
deriving DecidableEq, Repr

/-- The downstream batch job view that `_apply_batch_results` consumes:
`state.name` (none models `batch.state is None`) and
`batch.dest.inlined_responses` (none models a missing `dest` or a `None`
response list; the source applies `or []`). -/
structure GeminiBatch where
  state : Option String
  responses : Option (List InlineResponse)
deriving DecidableEq, Repr

/-- `google.genai.types.JOB_STATES_SUCCEEDED`: the downstream success-state
names (external collaborator constant). -/
def JOB_STATES_SUCCEEDED : List String :=
  ["JOB_STATE_SUCCEEDED", "BATCH_STATE_SUCCEEDED"]

/-- In-place mutation of the paper object shared between `papers_by_id` and
the session: update the record with the given id. -/
def updatePaper (papers : List Paper) (pid : String) (f : Paper → Paper) : List Paper :=
  papers.map (fun p => if p.id = pid then f p else p)

/-- The body of the response loop for a single `(paper_id, response)` pair:
skip missing papers, error responses, missing responses and falsy text;
otherwise parse and apply, counting 1. -/
def applyStep (papers : List Paper) (paper_id : String) (r : InlineResponse) :
    List Paper × Nat :=
  match papersById papers paper_id with
  | none => (papers, 0)
  | some _ =>
    if r.error.isSome then (papers, 0)
    else
      match r.response with
      | none => (papers, 0)
      | some raw_text =>
        if optStrTruthy raw_text = false then (papers, 0)
        else
          let meta := _parse_metadata (raw_text.getD "")
          (updatePaper papers paper_id (fun p => _apply_metadata p meta), 1)

/-- The `for idx, inline_response in enumerate(responses)` loop, with the
defensive `if idx >= len(job.paper_ids): break`. -/
def applyLoop (paper_ids : List String) :
    Nat → List InlineResponse → List Paper → List Paper × Nat
  | _, [], papers => (papers, 0)
  | idx, r :: rest, papers =>
    if paper_ids.length ≤ idx then (papers, 0)
    else
      let s := applyStep papers ((paper_ids[idx]?).getD "") r
      let t := applyLoop paper_ids (idx + 1) rest s.1
      (t.1, s.2 + t.2)

/-- Positional processing of member/response pairs — the specification's
reading of the loop ("response index *i* resolves to member-list entry
*i*"; `zip` also truncates at the shorter list). -/
def applyZip : List (String × InlineResponse) → List Paper → List Paper × Nat
  | [], papers => (papers, 0)
  | (pid, r) :: rest, papers =>
    let s := applyStep papers pid r
    let t := applyZip rest s.1
    (t.1, s.2 + t.2)

/-- `_apply_batch_results`: on a non-success terminal state mark the job
failed; otherwise apply responses positionally and mark the job applied.
Returns the updated job, the updated papers, and the applied count. -/
def _apply_batch_results (job : BatchJob) (batch : GeminiBatch)
    (papers : List Paper) (now : Nat) : BatchJob × List Paper × Nat :=
  let state_name := batch.state.getD "unknown"
  if batch.state = none ∨ ¬ JOB_STATES_SUCCEEDED.contains state_name then
    ({ job with state := "failed", completed_at := some now }, papers, 0)
  else
    let responses := batch.responses.getD []
    let r := applyLoop job.paper_ids 0 responses papers
    ({ job with state := "applied", papers_done := r.2, completed_at := some now },
      r.1, r.2)

lemma zip_take_right (l : List String) (r : List InlineResponse) :
    l.zip (r.take l.length) = l.zip r := by
  induction l generalizing r with
  | nil => simp
  | cons a as ih =>
    cases r with
    | nil => simp
    | cons b bs => simp [List.zip_cons_cons, ih]

lemma applyLoop_eq_applyZip (ids : List String) :
    ∀ (rs : List InlineResponse) (idx : Nat) (papers : List Paper),
      applyLoop ids idx rs papers = applyZip ((ids.drop idx).zip rs) papers := by
  intro rs
  induction rs with
  | nil => intro idx papers; simp [applyLoop, applyZip]
  | cons r rest ih =>
    intro idx papers
    by_cases h : ids.length ≤ idx
    · have hdrop : ids.drop idx = [] := by
        simpa using List.drop_eq_nil_of_le h
      simp [applyLoop, h, hdrop, applyZip]
    · push_neg at h
      have hd : ids.drop idx = ids[idx] :: ids.drop (idx + 1) :=
        List.drop_eq_getElem_cons h
      have hget : (ids[idx]?).getD "" = ids[idx] := by
        simp [List.getElem?_eq_getElem h]
      rw [applyLoop]
      simp only [if_neg (by omega : ¬ ids.length ≤ idx), hget, hd, List.zip_cons_cons]
      rw [applyZip]
      simp [ih]

/-- C1: positional correspondence. The persisted job's member list is, in
chunk order, exactly the ids for which extraction requests were built, and
the i-th request is built from the i-th member; result application equals
positional zip-processing of (member, response) pairs, so response *i* is
applied to member *i* and responses at or beyond the member-list length are
ignored. -/
theorem positional_correspondence :
    (∀ (chunk_ids : List String) (papers : List Paper)
        (download : String → Except String PdfBytes)
        (extractText : PdfBytes → Except String String)
        (batch_name job_id : String) (job : BatchJob),
      (_submit_chunk chunk_ids papers download extractText batch_name job_id).2.2 =
          some job →
      job.paper_ids = chunk_ids.filter (fun pid =>
        (builtRequest extractText (pdfOf papers download) (papersById papers) pid).isSome) ∧
      job.paper_ids.map
          (builtRequest extractText (pdfOf papers download) (papersById papers)) =
        (_submit_chunk chunk_ids papers download extractText batch_name job_id).2.1.map
          some) ∧
    (∀ (ids : List String) (rs : List InlineResponse) (papers : List Paper),
      applyLoop ids 0 rs papers = applyZip (ids.zip rs) papers) ∧
    (∀ (ids : List String) (rs : List InlineResponse) (papers : List Paper),
      applyLoop ids 0 rs papers = applyLoop ids 0 (rs.take ids.length) papers) := by
  refine ⟨?_, ?_, ?_⟩
  · intro cids papers dl ex bn jid job hjob
    have hres := prepLoop_resolved ex (pdfOf papers dl) (papersById papers) cids papers
    have hreqs := prepLoop_requests ex (pdfOf papers dl) (papersById papers) cids papers
    by_cases hempty : (prepLoop ex (pdfOf papers dl) (papersById papers) cids papers).1 = []
    · simp only [_submit_chunk, if_pos hempty] at hjob
      cases hjob
    · simp only [_submit_chunk, if_neg hempty, Option.some.injEq] at hjob
      subst hjob
      refine ⟨hres, ?_⟩
      simp only [_submit_chunk, if_neg hempty]
      exact hreqs
  · intro ids rs papers
    have h := applyLoop_eq_applyZip ids rs 0 papers
    simpa using h
  · intro ids rs papers
    rw [applyLoop_eq_applyZip ids rs 0 papers,
      applyLoop_eq_applyZip ids (rs.take ids.length) 0 papers]
    simp [zip_take_right]

/-- Concrete two-paper catalog used by witnesses. -/
def wPapers : List Paper :=
  [{ id := "a", title := "", authors := [], published_date := none,
     abstract := none, metadata_skip_reason := none, drive_file_id := "fa" },
   { id := "b", title := "", authors := [], published_date := none,
     abstract := none, metadata_skip_reason := none, drive_file_id := "fb" }]

def wDl : String → Except String PdfBytes := fun _ => .ok "PDF"

def wEx : PdfBytes → Except String String := fun _ => .ok "TEXT"

example :
    (_submit_chunk ["a", "b"] wPapers wDl wEx "batches/b1" "j1").2.2 =
      some { id := "j1", gemini_job_name := "batches/b1", state := "submitted",
             paper_ids := ["a", "b"], papers_done := 0, completed_at := none } := by rfl

/-- Witness for C1: a two-entry chunk whose job member list is exactly the
ids with built requests. -/
theorem positional_correspondence_witness :
    ({ id := "j1", gemini_job_name := "batches/b1", state := "submitted",
       paper_ids := ["a", "b"], papers_done := 0,
       completed_at := none } : BatchJob).paper_ids =
      ["a", "b"].filter (fun pid =>
        (builtRequest wEx (pdfOf wPapers wDl) (papersById wPapers) pid).isSome) :=
  (positional_correspondence.1 ["a", "b"] wPapers wDl wEx "batches/b1" "j1" _
    (by rfl)).1

/-! ## System steps: one submission-loop iteration, one poll application -/

/-- The persistent store: catalog entries and job rows. -/
structure World where
  papers : List Paper
  jobs : List BatchJob
deriving DecidableEq, Repr

/-- The body of one `while is_running()` iteration of `_loop`: select the
chunk (excluding in-flight ids) and submit it; the new job row, if any, is
committed to the store. An empty chunk stops the loop (store unchanged). -/
def loop_iteration (download : String → Except String PdfBytes)
    (extractText : PdfBytes → Except String String) (bn jid : String)
    (w : World) : World :=
  let chunk := select_chunk w.papers w.jobs
  if chunk = [] then w
  else
    let r := _submit_chunk chunk w.papers download extractText bn jid
    { papers := r.1, jobs := w.jobs ++ r.2.2.toList }

/-- One completed-batch application inside the poll tick, for the job at
position `i` (object identity in the session is positional here). -/
def poll_apply (i : Nat) (batch : GeminiBatch) (now : Nat) (w : World) : World :=
  match w.jobs[i]? with
  | none => w
  | some job =>
    let r := _apply_batch_results job batch w.papers now
    { papers := r.2.1, jobs := w.jobs.set i r.1 }

/-- Interleaved atomic steps of the submission loop and the shared poller.
The poller only ever processes jobs it loaded with `state == "submitted"`. -/
inductive Step : World → World → Prop where
  | loop (download : String → Except String PdfBytes)
      (extractText : PdfBytes → Except String String) (bn jid : String) (w : World) :
      Step w (loop_iteration download extractText bn jid w)
  | poll (i : Nat) (batch : GeminiBatch) (now : Nat) (w : World)
      (h : ∀ job ∈ w.jobs[i]?, job.state = "submitted") :
      Step w (poll_apply i batch now w)

/-- No two distinct job rows in state "submitted" share a member id. -/
def jobsDisjoint (jobs : List BatchJob) : Prop :=
  ∀ i, ∀ _ : i < jobs.length, ∀ j, ∀ _ : j < jobs.length, i ≠ j →
    (jobs[i]).state = "submitted" → (jobs[j]).state = "submitted" →
    ∀ pid ∈ (jobs[i]).paper_ids, pid ∉ (jobs[j]).paper_ids

def submittedDisjoint (w : World) : Prop := jobsDisjoint w.jobs

lemma select_chunk_not_inflight (papers : List Paper) (jobs : List BatchJob)
    (pid : String) (j : BatchJob) (hmem : pid ∈ select_chunk papers jobs)
    (hj : j ∈ jobs) (hstate : j.state = "submitted") : pid ∉ j.paper_ids := by
  intro hpid
  have hmem' := List.mem_of_mem_take hmem
  obtain ⟨p, hp, hpe⟩ := List.mem_map.mp hmem'
  obtain ⟨-, hcond⟩ := List.mem_filter.mp hp
  have hnotin : ((in_flight jobs).contains p.id) = false := by
    have := ((Bool.and_eq_true _ _).mp hcond).2
    simpa using this
  have hin : pid ∈ in_flight jobs := by
    apply List.mem_flatMap.mpr
    exact ⟨j, List.mem_filter.mpr ⟨hj, by simp [hstate]⟩, hpid⟩
  rw [hpe] at hnotin
  have hnot : pid ∉ in_flight jobs := by
    simpa using hnotin
  exact hnot hin

lemma submit_chunk_job (cids : List String) (papers : List Paper)
    (dl : String → Except String PdfBytes) (ex : PdfBytes → Except String String)
    (bn jid : String) (job : BatchJob)
    (h : (_submit_chunk cids papers dl ex bn jid).2.2 = some job) :
    job.state = "submitted" ∧ ∀ pid ∈ job.paper_ids, pid ∈ cids := by
  by_cases hempty : (prepLoop ex (pdfOf papers dl) (papersById papers) cids papers).1 = []
  · simp only [_submit_chunk, if_pos hempty] at h
    cases h
  · simp only [_submit_chunk, if_neg hempty, Option.some.injEq] at h
    subst h
    refine ⟨rfl, ?_⟩
    intro pid hpid
    have hres := prepLoop_resolved ex (pdfOf papers dl) (papersById papers) cids papers
    have hpid2 : pid ∈ (prepLoop ex (pdfOf papers dl) (papersById papers) cids papers).2.1 :=
      hpid
    rw [hres] at hpid2
    exact List.mem_of_mem_filter hpid2

lemma apply_results_job (job : BatchJob) (batch : GeminiBatch)
    (papers : List Paper) (now : Nat) :
    ((_apply_batch_results job batch papers now).1.state = "applied" ∨
      (_apply_batch_results job batch papers now).1.state = "failed") ∧
    (_apply_batch_results job batch papers now).1.paper_ids = job.paper_ids := by
  simp only [_apply_batch_results]
  split_ifs with hcond
  · exact ⟨Or.inr rfl, rfl⟩
  · exact ⟨Or.inl rfl, rfl⟩

lemma jobsDisjoint_append_nil (L : List BatchJob) (h : jobsDisjoint L) :
    jobsDisjoint (L ++ []) := by
  simpa using h

lemma jobsDisjoint_append_singleton (L : List BatchJob) (job : BatchJob)
    (hL : jobsDisjoint L)
    (hnew : ∀ k, ∀ _ : k < L.length, (L[k]).state = "submitted" →
      ∀ pid ∈ job.paper_ids, pid ∉ (L[k]).paper_ids) :
    jobsDisjoint (L ++ [job]) := by
  intro i hi j hj hne hsi hsj pid hpidI
  have hlen : (L ++ [job]).length = L.length + 1 := by simp
  by_cases hiL : i < L.length
  · by_cases hjL : j < L.length
    · rw [List.getElem_append_left hiL] at hsi hpidI
      rw [List.getElem_append_left hjL] at hsj ⊢
      exact hL i hiL j hjL hne hsi hsj pid hpidI
    · have hjv : j = L.length := by omega
      have hgj : (L ++ [job])[j] = job := by
        subst hjv
        simp
      rw [List.getElem_append_left hiL] at hsi hpidI
      rw [hgj]
      intro hpidJ
      exact hnew i hiL hsi pid hpidJ hpidI
  · have hiv : i = L.length := by omega
    have hgi : (L ++ [job])[i] = job := by
      subst hiv
      simp
    by_cases hjL : j < L.length
    · rw [hgi] at hpidI
      rw [List.getElem_append_left hjL] at hsj ⊢
      exact hnew j hjL hsj pid hpidI
    · omega

lemma jobsDisjoint_set (L : List BatchJob) (k : Nat) (job' : BatchJob)
    (hstate : job'.state ≠ "submitted") (h : jobsDisjoint L) :
    jobsDisjoint (L.set k job') := by
  intro i hi j hj hne hsi hsj pid hpidI
  have hlen : (L.set k job').length = L.length := by simp
  rw [hlen] at hi hj
  rw [List.getElem_set] at hsi hpidI hsj ⊢
  by_cases hik : k = i
  · simp only [hik, if_pos rfl] at hsi
    exact absurd hsi hstate
  · by_cases hjk : k = j
    · simp only [hjk, if_pos rfl] at hsj
      exact absurd hsj hstate
    · simp only [if_neg hik] at hsi hpidI
      simp only [if_neg hjk] at hsj ⊢
      exact h i hi j hj hne hsi hsj pid hpidI

lemma step_preserves_disjoint {w w' : World} (hstep : Step w w')
    (h : submittedDisjoint w) : submittedDisjoint w' := by
  cases hstep with
  | loop dl ex bn jid w =>
    unfold loop_iteration
    by_cases hchunk : select_chunk w.papers w.jobs = []
    · simpa [hchunk] using h
    · simp only [if_neg hchunk]
      cases hjob : (_submit_chunk (select_chunk w.papers w.jobs) w.papers dl ex bn jid).2.2 with
      | none =>
        unfold submittedDisjoint
        simp only [hjob, Option.toList_none]
        exact jobsDisjoint_append_nil w.jobs h
      | some job =>
        unfold submittedDisjoint
        simp only [hjob, Option.toList_some]
        apply jobsDisjoint_append_singleton w.jobs job h
        intro k hk hks pid hpidJ
        have hsub := submit_chunk_job _ _ _ _ _ _ _ hjob
        have hchunkmem : pid ∈ select_chunk w.papers w.jobs := hsub.2 pid hpidJ
        exact select_chunk_not_inflight w.papers w.jobs pid (w.jobs[k])
          hchunkmem (List.getElem_mem hk) hks
  | poll i batch now w hpoll =>
    unfold poll_apply
    cases hjob : w.jobs[i]? with
    | none => simpa [hjob] using h
    | some job =>
      simp only [hjob]
      unfold submittedDisjoint
      have hres := apply_results_job job batch w.papers now
      apply jobsDisjoint_set w.jobs i _ _ h
      rcases hres.1 with ha | hf
      · rw [ha]; decide
      · rw [hf]; decide

lemma rtg_preserves_disjoint {w w' : World}
    (h : Relation.ReflTransGen Step w w') :
    submittedDisjoint w → submittedDisjoint w' := by
  induction h with
  | refl => exact id
  | tail _ hstep ih => exact fun h0 => step_preserves_disjoint hstep (ih h0)

/-- C10: in-flight exclusion. Every id selected into a chunk is absent from
the member list of every job currently in state "submitted", and along any
interleaving of loop iterations and poll applications the submitted jobs'
member lists stay pairwise disjoint — no paper id is ever a member of two
in-flight jobs at once. -/
theorem in_flight_exclusion :
    (∀ (papers : List Paper) (jobs : List BatchJob) (pid : String) (j : BatchJob),
      pid ∈ select_chunk papers jobs → j ∈ jobs → j.state = "submitted" →
      pid ∉ j.paper_ids) ∧
    (∀ w w' : World, submittedDisjoint w → Relation.ReflTransGen Step w w' →
      submittedDisjoint w') :=
  ⟨select_chunk_not_inflight,
    fun _ _ h hr => rtg_preserves_disjoint hr h⟩

/-- Witness for C10: a one-step trace (a poll application over a one-job
store) keeps the submitted jobs pairwise disjoint. -/
theorem in_flight_exclusion_witness :
    submittedDisjoint (poll_apply 0 ⟨some "JOB_STATE_FAILED", none⟩ 3
      ⟨[], [⟨"j1", "batches/g1", "submitted", ["p1"], 0, none⟩]⟩) :=
  in_flight_exclusion.2
    ⟨[], [⟨"j1", "batches/g1", "submitted", ["p1"], 0, none⟩]⟩ _
    (by
      intro i hi j hj hne hsi hsj pid hpid
      simp only [List.length_singleton] at hi hj
      omega)
    (Relation.ReflTransGen.single
      (Step.poll 0 ⟨some "JOB_STATE_FAILED", none⟩ 3
        ⟨[], [⟨"j1", "batches/g1", "submitted", ["p1"], 0, none⟩]⟩
        (by intro job hj; simp at hj; subst hj; rfl)))

lemma step_preserves_failed {w w' : World} (hstep : Step w w') :
    ∀ (i : Nat) (j : BatchJob), w.jobs[i]? = some j → j.state = "failed" →
      ∃ j' : BatchJob, w'.jobs[i]? = some j' ∧ j'.state = "failed" := by
  cases hstep with
  | loop dl ex bn jid w =>
    intro i j hj hf
    unfold loop_iteration
    by_cases hchunk : select_chunk w.papers w.jobs = []
    · exact ⟨j, by simpa [hchunk] using hj, hf⟩
    · simp only [if_neg hchunk]
      have hi : i < w.jobs.length := by
        by_contra hlt
        push_neg at hlt
        rw [List.getElem?_eq_none hlt] at hj
        cases hj
      refine ⟨j, ?_, hf⟩
      rw [List.getElem?_append, if_pos hi]
      exact hj
  | poll i0 batch now w h =>
    intro i j hj hf
    unfold poll_apply
    cases hjob : w.jobs[i0]? with
    | none => exact ⟨j, hj, hf⟩
    | some job =>
      simp only
      by_cases hik : i0 = i
      · subst hik
        have hsub : job.state = "submitted" := h job (Option.mem_def.mpr hjob)
        rw [hjob] at hj
        have : job = j := Option.some.inj hj
        rw [this, hf] at hsub
        exact absurd hsub (by decide)
      · refine ⟨j, ?_, hf⟩
        rw [List.getElem?_set_ne hik]
        exact hj

lemma rtg_preserves_failed {w w' : World}
    (h : Relation.ReflTransGen Step w w') :
    ∀ (i : Nat) (j : BatchJob), w.jobs[i]? = some j → j.state = "failed" →
      ∃ j' : BatchJob, w'.jobs[i]? = some j' ∧ j'.state = "failed" := by
  induction h with
  | refl => exact fun i j hj hf => ⟨j, hj, hf⟩
  | tail hw hstep ih =>
    intro i j hj hf
    obtain ⟨j1, hj1, hf1⟩ := ih i j hj hf
    exact step_preserves_failed hstep i j1 hj1 hf1

/-- C5: job-level terminal failure is atomic. When the downstream terminal
state is not a success state, the job is marked "failed" with a completion
timestamp, no catalog entry is modified, and zero is contributed to the
progress count; and along any trace of loop/poll steps the job row at a
failed position stays failed (failed jobs are never resubmitted). -/
theorem job_failure_atomic :
    (∀ (job : BatchJob) (batch : GeminiBatch) (papers : List Paper) (now : Nat),
      (batch.state = none ∨
        ¬ JOB_STATES_SUCCEEDED.contains (batch.state.getD "unknown") = true) →
      _apply_batch_results job batch papers now =
        ({ job with state := "failed", completed_at := some now }, papers, 0)) ∧
    (∀ w w' : World, Relation.ReflTransGen Step w w' →
      ∀ (i : Nat) (j : BatchJob), w.jobs[i]? = some j → j.state = "failed" →
        ∃ j' : BatchJob, w'.jobs[i]? = some j' ∧ j'.state = "failed") := by
  constructor
  · intro job batch papers now hc
    simp only [_apply_batch_results]
    exact if_pos hc
  · intro w w' h
    exact rtg_preserves_failed h

/-- Witness for C5: a concrete two-member job whose batch reports
JOB_STATE_FAILED is marked failed with nothing else changed. -/
theorem job_failure_atomic_witness :
    _apply_batch_results ⟨"j1", "batches/g1", "submitted", ["p1", "p2"], 0, none⟩
      ⟨some "JOB_STATE_FAILED", none⟩ wPapers 7 =
      (⟨"j1", "batches/g1", "failed", ["p1", "p2"], 0, some 7⟩, wPapers, 0) :=
  job_failure_atomic.1 ⟨"j1", "batches/g1", "submitted", ["p1", "p2"], 0, none⟩
    ⟨some "JOB_STATE_FAILED", none⟩ wPapers 7 (Or.inr (by decide))

/-! ## Loop start and configuration (`start_loop`, `_loop`,
`_get_gemini_client`) -/

/-- The two environment variables the service reads. -/
structure Env where
  GEMINI_API_KEY : Option String
  GEMINI_PDF_MODEL : Option String
deriving DecidableEq, Repr

/-- `_get_gemini_client` (src/backend/src/services/batch_metadata.py,
lines 366-373): raises `ValueError` (the `.error` case) when either
variable is missing or blank; otherwise returns the client (stood in for by
its key) and the model name. -/
def _get_gemini_client (env : Env) : Except String (String × String) :=
  let api_key := pyStrip ((env.GEMINI_API_KEY).getD "")
  let model_name := pyStrip ((env.GEMINI_PDF_MODEL).getD "")
  if api_key = "" then .error "GEMINI_API_KEY environment variable is not set"
  else if model_name = "" then
    .error "GEMINI_PDF_MODEL environment variable is not set"
  else .ok (api_key, model_name)

/-- The module-level loop state (`_running`, `_papers_done`). -/
structure LoopSt where
  running : Bool
  papers_done : Nat
deriving DecidableEq, Repr

/-- Modelled from the spec: `BatchLoopStatus` is imported from
`src.schemas.batch` but not defined there; per the spec's status surface it
carries `{running, papers_done}`. -/
structure BatchLoopStatus where
  running : Bool
  papers_done : Nat
deriving DecidableEq, Repr

/-- `start_loop`: no-op when already running, else set the run flag, reset
the counter and spawn the loop thread. Its return type is the status — no
error channel exists on this path. -/
def start_loop (st : LoopSt) : LoopSt × BatchLoopStatus :=
  if st.running then (st, ⟨true, st.papers_done⟩)
  else ({ running := true, papers_done := 0 }, ⟨true, 0⟩)

def stop_loop (st : LoopSt) : LoopSt × BatchLoopStatus :=
  ({ st with running := false }, ⟨false, st.papers_done⟩)

/-- The `while is_running()` body of `_loop`, iterated under fuel: select a
chunk, stop when none, else submit it. Returns the store, the loop state
and the number of jobs created. -/
def _loop_run (download : String → Except String PdfBytes)
    (extractText : PdfBytes → Except String String) (names jids : Nat → String) :
    Nat → World → LoopSt → Nat → World × LoopSt × Nat
  | 0, w, st, count => (w, st, count)
  | fuel + 1, w, st, count =>
    if st.running then
      let chunk := select_chunk w.papers w.jobs
      if chunk = [] then (w, (stop_loop st).1, count)
      else
        let r := _submit_chunk chunk w.papers download extractText
          (names count) (jids count)
        _loop_run download extractText names jids fuel
          { papers := r.1, jobs := w.jobs ++ r.2.2.toList } st
          (count + r.2.2.toList.length)
    else (w, st, count)

/-- `_loop`: the config check runs first; a `ValueError` from
`_get_gemini_client` is caught, logged (the returned `Option String`) and
the loop stops without an iteration — nothing propagates out of the
thread. -/
def _loop (env : Env) (download : String → Except String PdfBytes)
    (extractText : PdfBytes → Except String String) (names jids : Nat → String)
    (fuel : Nat) (w : World) (st : LoopSt) :
    World × LoopSt × Nat × Option String :=
  match _get_gemini_client env with
  | .error e => (w, (stop_loop st).1, 0, some e)
  | .ok _ =>
    let r := _loop_run download extractText names jids fuel w st 0
    (r.1, r.2.1, r.2.2, none)

/-- `start_loop` followed by the daemon thread's `_loop` run to completion:
what a caller of `start()` observes (the first component) together with
everything the thread did. -/
def start_loop_and_run (env : Env) (download : String → Except String PdfBytes)
    (extractText : PdfBytes → Except String String) (names jids : Nat → String)
    (fuel : Nat) (w : World) (st : LoopSt) :
    BatchLoopStatus × World × LoopSt × Nat × Option String :=
  let s := start_loop st
  if st.running then (s.2, w, s.1, 0, none)
  else
    let r := _loop env download extractText names jids fuel w s.1
    (s.2, r.1, r.2.1, r.2.2.1, r.2.2.2)

/-- A store with one eligible paper, used by the C4 counterexample. -/
def w0 : World :=
  ⟨[{ id := "p1", title := "T", authors := [], published_date := none,
      abstract := none, metadata_skip_reason := none, drive_file_id := "f1" }], []⟩

def env0 : Env := ⟨none, some "gemini-2.0-flash"⟩

def envGood : Env := ⟨some "key-123", some "gemini-2.0-flash"⟩

def names0 : Nat → String := fun k => "batches/b" ++ toString k

def jids0 : Nat → String := fun k => "job" ++ toString k

/-- Counterexample for C4: with `GEMINI_API_KEY` unset the caller of
`start()` receives the normal running status — byte-identical to the status
a correctly-configured start returns — while the error is only absorbed
inside the loop thread (logged, run flag cleared, zero chunks submitted,
store untouched). No hard error reaches the caller. -/
theorem start_loop_config_error_cex :
    (start_loop_and_run env0 wDl wEx names0 jids0 5 w0 ⟨false, 0⟩).1 =
        ({ running := true, papers_done := 0 } : BatchLoopStatus) ∧
    (start_loop_and_run env0 wDl wEx names0 jids0 5 w0 ⟨false, 0⟩).2.2.2.2 =
        some "GEMINI_API_KEY environment variable is not set" ∧
    (start_loop_and_run env0 wDl wEx names0 jids0 5 w0 ⟨false, 0⟩).2.2.2.1 = 0 ∧
    (start_loop_and_run env0 wDl wEx names0 jids0 5 w0 ⟨false, 0⟩).2.1 = w0 ∧
    (start_loop_and_run env0 wDl wEx names0 jids0 5 w0 ⟨false, 0⟩).1 =
      (start_loop_and_run envGood wDl wEx names0 jids0 5 w0 ⟨false, 0⟩).1 := by
  refine ⟨by rfl, by rfl, by rfl, by rfl, by rfl⟩

/-- C4 (amended): a missing required configuration value makes the loop
fail fast — it runs no iteration, submits nothing, clears the run flag and
records the error — but `start()` still returns the normal status to its
caller; the error is absorbed in the loop thread, not propagated. -/
theorem start_loop_config_error_fails_fast :
    ∀ (env : Env) (download : String → Except String PdfBytes)
      (extractText : PdfBytes → Except String String) (names jids : Nat → String)
      (fuel : Nat) (w : World) (st : LoopSt) (e : String),
      st.running = false → _get_gemini_client env = .error e →
      start_loop_and_run env download extractText names jids fuel w st =
        (⟨true, 0⟩, w, ⟨false, 0⟩, 0, some e) := by
  intro env dl ex names jids fuel w st e hrun herr
  simp only [start_loop_and_run, start_loop, _loop, hrun, herr]
  rfl

/-- Witness for C4's amended theorem at the concrete bad environment. -/
theorem start_loop_config_error_fails_fast_witness :
    start_loop_and_run env0 wDl wEx names0 jids0 5 w0 ⟨false, 0⟩ =
      (⟨true, 0⟩, w0, ⟨false, 0⟩, 0,
        some "GEMINI_API_KEY environment variable is not set") :=
  start_loop_config_error_fails_fast env0 wDl wEx names0 jids0 5 w0 ⟨false, 0⟩
    "GEMINI_API_KEY environment variable is not set" (by rfl) (by rfl)

/-! ## Process startup (`src/backend/src/main.py`) and
`resume_submitted_chunks` -/

/-- Process-level view at startup: the persisted job rows and whether the
shared poll thread is running (always false at process birth). -/
structure ProcessState where
  jobs : List BatchJob
  poll_thread_running : Bool
deriving DecidableEq, Repr

/-- `create_tables` (src/backend/src/db.py): DDL and search-vector trigger
maintenance only — reads and writes no job rows and starts no thread. -/
def create_tables_effect (s : ProcessState) : ProcessState := s

/-- `startup` (src/backend/src/main.py, lines 91-93): the application's only
startup hook; its body calls exactly `create_tables()`. -/
def startup (s : ProcessState) : ProcessState := create_tables_effect s

/-- `resume_submitted_chunks` (src/backend/src/services/batch_metadata.py,
lines 113-131): query jobs left in "submitted", and if any exist (and the
client config is available) start the shared poll thread. Defined in the
source but called from nowhere. -/
def resume_submitted_chunks (env : Env) (s : ProcessState) : ProcessState :=
  let jobs := s.jobs.filter (fun j => j.state = "submitted")
  if jobs.isEmpty then s
  else
    match _get_gemini_client env with
    | .error _ => s
    | .ok _ => { s with poll_thread_running := true }

def job_submitted_example : BatchJob :=
  ⟨"j1", "batches/g1", "submitted", ["p1"], 0, none⟩

/-- C2 (code bug): at process startup with a job row persisted in
"submitted", the startup hook changes nothing and in particular starts no
poller — `resume_submitted_chunks` would have re-attached it (third
conjunct), but `startup` never invokes it. -/
theorem startup_skips_resume :
    startup ⟨[job_submitted_example], false⟩ =
      (⟨[job_submitted_example], false⟩ : ProcessState) ∧
    (startup ⟨[job_submitted_example], false⟩).poll_thread_running = false ∧
    (resume_submitted_chunks envGood
      ⟨[job_submitted_example], false⟩).poll_thread_running = true := by
  exact ⟨rfl, rfl, by rfl⟩

/-! ## The `BatchJob` ORM columns (src/backend/src/models/batch_job.py) -/

/-- The mapped columns of the `BatchJob` ORM model — note the absence of
`papers_done`. -/
def batch_jobs_columns : List String :=
  ["id", "gemini_job_name", "state", "paper_ids", "created_at", "completed_at"]

/-- SQLAlchemy's declarative constructor: raises `TypeError` for any keyword
argument that is not an attribute of the mapped class. -/
def declarative_init (cls_attrs kwargs : List String) : Except String Unit :=
  match kwargs.find? (fun k => !cls_attrs.contains k) with
  | some k => .error (k ++ " is an invalid keyword argument for BatchJob")
  | none => .ok ()

/-- The keyword arguments of the `BatchJob(...)` call in `_submit_chunk`
(src/backend/src/services/batch_metadata.py, lines 282-288). -/
def submit_chunk_batchjob_kwargs : List String :=
  ["id", "gemini_job_name", "state", "paper_ids", "papers_done"]

/-- C6 (code bug): the `BatchJob` ORM model has no `papers_done` column, so
the `papers_done=0` keyword in `_submit_chunk`'s constructor call raises
`TypeError`, and the applied count assigned in `_apply_batch_results` is a
transient attribute, not a persisted column. -/
theorem papers_done_not_persistable :
    "papers_done" ∉ batch_jobs_columns ∧
    declarative_init batch_jobs_columns submit_chunk_batchjob_kwargs =
      .error "papers_done is an invalid keyword argument for BatchJob" := by
  exact ⟨by decide, by rfl⟩

end Paperstore
